import Mathlib

/-!
Verification of the NCDC temperature-extraction MapReduce job
(`src/temp_extractor.py`).  The mapper and reducer bodies are embedded
shallowly: a Python `str` is a `List Char`, Python slices are
`drop`/`take`, and Python's `int(...)` built-in (base 10) is modelled by
`pyInt` below for the ASCII/Latin-1 range that the fixed-width ISD
records use.
-/

/-- Python `str.isspace()` character class, restricted to the
ASCII/Latin-1 range (the same class is used by `int()` to strip
surrounding whitespace). -/
def pyIsSpace (c : Char) : Bool :=
  c = ' ' || c = '\t' || c = '\n' || c = '\x0b' || c = '\x0c' || c = '\r' ||
  c = '\x1c' || c = '\x1d' || c = '\x1e' || c = '\x1f' || c = '\x85' || c = '\xa0'

/-- Python `s.isspace()`: `s` is nonempty and every character is whitespace. -/
def pyIsSpaceStr (s : List Char) : Bool :=
  !s.isEmpty && s.all pyIsSpace

/-- Whitespace stripping performed by Python `int(str)` before parsing
(both ends). -/
def pyStrip (s : List Char) : List Char :=
  ((s.dropWhile pyIsSpace).reverse.dropWhile pyIsSpace).reverse

/-- Numeric value of an ASCII digit character. -/
def digitVal (c : Char) : Nat := c.toNat - '0'.toNat

/-- Digits after the first one in Python's integer grammar:
`digit (["_"] digit)*` — a single underscore is allowed between two
digits, nowhere else. -/
def digRest (acc : Nat) : List Char → Option Nat
  | [] => some acc
  | '_' :: c :: cs => if c.isDigit then digRest (acc * 10 + digitVal c) cs else none
  | '_' :: [] => none
  | c :: cs => if c.isDigit then digRest (acc * 10 + digitVal c) cs else none

/-- The mandatory digit part of Python's integer grammar: at least one
digit, then `digRest`. -/
def digitPart : List Char → Option Nat
  | [] => none
  | c :: cs => if c.isDigit then digRest (digitVal c) cs else none

/-- Python `int(s)` in base 10 (ASCII range): optional surrounding
whitespace, one optional sign, then a digit part (digits with single
underscores allowed between digits).  `none` models `ValueError`. -/
def pyInt (s : List Char) : Option Int :=
  match pyStrip s with
  | '+' :: rest => (digitPart rest).map (fun n => (n : Int))
  | '-' :: rest => (digitPart rest).map (fun n => -(n : Int))
  | rest => (digitPart rest).map (fun n => (n : Int))

/-- `line[15:19]` — the year field of a record. -/
def yearOf (line : List Char) : List Char := (line.drop 15).take 4

/-- `line[87:92]` — the raw temperature field of a record. -/
def tempField (line : List Char) : List Char := (line.drop 87).take 5

/-- `if temp_str.startswith('+'): temp_str = temp_str[1:]` — strip
exactly one leading `'+'`; a leading `'-'` is left intact. -/
def stripPlus (s : List Char) : List Char :=
  if s.head? = some '+' then s.tail else s

/-- The temperature field after sign normalization. -/
def strippedTemp (line : List Char) : List Char := stripPlus (tempField line)

/-- `line[92]` — the quality-code character.  The default is never
consulted: the mapper reads it only after checking `len(line) >= 93`. -/
def qualityOf (line : List Char) : Char := line.getD 92 ' '

/-- The accepted quality codes: `quality in "01459"`.  For the
single-character `quality`, Python substring membership coincides with
membership in this character list. -/
def accepted : List Char := ['0', '1', '4', '5', '9']

/-- `TempExtractor.mapper` from `src/temp_extractor.py`: the record is
discarded (`none`) on a short line, a blank temperature field, a failed
`int` parse, the 9999 sentinel, or a bad quality code; otherwise the
single pair `(year, temp)` is yielded. -/
def mapper (line : List Char) : Option (List Char × Int) :=
  if line.length < 93 then none
  else if (strippedTemp line).isEmpty || pyIsSpaceStr (strippedTemp line) then none
  else
    match pyInt (strippedTemp line) with
    | none => none
    | some temp =>
      if temp ≠ 9999 ∧ qualityOf line ∈ accepted then
        some (yearOf line, temp)
      else none

/-- Python exceptions relevant to the mapper body. -/
inductive PyErr : Type
  | valueError : PyErr
  | indexError : PyErr
deriving DecidableEq

/-- Python string indexing `s[i]`, which raises `IndexError` when out of
range. -/
def strIndexE (s : List Char) (i : Nat) : Except PyErr Char :=
  match s.get? i with
  | some c => Except.ok c
  | none => Except.error PyErr.indexError

/-- Python `int(s)`, which raises `ValueError` when the parse fails. -/
def pyIntE (s : List Char) : Except PyErr Int :=
  match pyInt s with
  | some n => Except.ok n
  | none => Except.error PyErr.valueError

/-- The mapper with Python's exception behaviour made explicit: the
`try`/`except ValueError` around `int(temp_str)` turns exactly a
`ValueError` into a silent discard, and `line[92]` is a fallible index
access. -/
def mapperE (line : List Char) : Except PyErr (Option (List Char × Int)) :=
  if line.length < 93 then Except.ok none
  else if (strippedTemp line).isEmpty || pyIsSpaceStr (strippedTemp line) then Except.ok none
  else
    match pyIntE (strippedTemp line) with
    | Except.error PyErr.valueError => Except.ok none
    | Except.error e => Except.error e
    | Except.ok temp =>
      match strIndexE line 92 with
      | Except.error e => Except.error e
      | Except.ok quality =>
        if temp ≠ 9999 ∧ quality ∈ accepted then Except.ok (some (yearOf line, temp))
        else Except.ok none

/-- The mapper as the Python method `mapper(self, _, line)`: `self` and
the ignored key are in scope but the body reads neither. -/
def mapperMethod {σ κ : Type} (_self : σ) (_key : κ) (line : List Char) :
    Option (List Char × Int) :=
  if line.length < 93 then none
  else if (strippedTemp line).isEmpty || pyIsSpaceStr (strippedTemp line) then none
  else
    match pyInt (strippedTemp line) with
    | none => none
    | some temp =>
      if temp ≠ 9999 ∧ qualityOf line ∈ accepted then
        some (yearOf line, temp)
      else none

/-- Decimal digit string of a natural number, by structural recursion on
a fuel argument (`natDigits` below always supplies enough fuel, so the
fuel-exhausted base case is reached only with `n < 10`). -/
def natDigitsFuel : Nat → Nat → List Char
  | 0, n => [Nat.digitChar n]
  | fuel+1, n =>
    if n < 10 then [Nat.digitChar n]
    else natDigitsFuel fuel (n / 10) ++ [Nat.digitChar (n % 10)]

/-- Decimal digit string of a natural number, as produced by Python
`str(int)` for nonnegative values. -/
def natDigits (n : Nat) : List Char := natDigitsFuel n n

/-- Python `str(t)` for an `int`: a leading `'-'` for negatives, no sign
for nonnegatives, no padding. -/
def pyIntRepr (t : Int) : List Char :=
  if t < 0 then '-' :: natDigits t.natAbs else natDigits t.natAbs

/-- `TempExtractor.reducer` from `src/temp_extractor.py`: for each
temperature in order, yield the pair `(None, f"{year} {temp}")`. -/
def reducer (year : List Char) : List Int → List (Option Unit × List Char)
  | [] => []
  | t :: ts => (none, year ++ ' ' :: pyIntRepr t) :: reducer year ts

/-- The mapper as the generator it is in Python: the body contains a
single `yield`, reached at most once per invocation. -/
def mapperGen (line : List Char) : List (List Char × Int) :=
  if line.length < 93 then []
  else if (strippedTemp line).isEmpty || pyIsSpaceStr (strippedTemp line) then []
  else
    match pyInt (strippedTemp line) with
    | none => []
    | some temp =>
      if temp ≠ 9999 ∧ qualityOf line ∈ accepted then [(yearOf line, temp)]
      else []

/-- The numeric value of a digit string read left to right (used to state
that `natDigits` really is the decimal representation). -/
def digitsVal (l : List Char) : Nat := l.foldl (fun a c => a * 10 + digitVal c) 0

/-- The temperature substring contains a character that is neither a
digit nor a single leading minus sign. -/
def hasStrayNonDigit (s : List Char) : Prop :=
  ∃ i : Fin s.length, ¬ (s.get i).isDigit = true ∧ ¬ (i.val = 0 ∧ s.get i = '-')

instance (s : List Char) : Decidable (hasStrayNonDigit s) := by
  unfold hasStrayNonDigit; infer_instance

/-- A 93-character test record: 15 filler characters, the 4-character
year field, 68 filler characters, the 5-character temperature field, and
the quality code. -/
def mkLine (year temp : String) (q : Char) : List Char :=
  "METEOSTATIONXYZ".toList ++ year.toList ++ List.replicate 68 '0' ++ temp.toList ++ [q]

example : (mkLine "1950" "+0078" '1').length = 93 := by decide
example : mapper (mkLine "1950" "+0078" '1') = some ("1950".toList, 78) := by decide
example : mapper (mkLine "1950" "++123" '1') = some ("1950".toList, 123) := by decide
example : pyInt "12x45".toList = none := by decide
example : pyInt " -123".toList = some (-123) := by decide
example : pyInt "1_000".toList = some 1000 := by decide
example : pyInt "10_".toList = none := by decide
example : pyInt "".toList = none := by decide

/-! ### Helper lemmas -/

theorem pyInt_nil : pyInt [] = none := rfl

theorem pyInt_of_all_space (s : List Char) (h : s.all pyIsSpace = true) :
    pyInt s = none := by
  have hdrop : s.dropWhile pyIsSpace = [] := by
    rw [List.dropWhile_eq_nil_iff]
    intro x hx
    exact List.all_eq_true.mp h x hx
  unfold pyInt pyStrip
  rw [hdrop]
  rfl

theorem not_blank_of_pyInt_some (s : List Char) (t : Int)
    (hp : pyInt s = some t) : (s.isEmpty || pyIsSpaceStr s) = false := by
  cases hsp : (s.isEmpty || pyIsSpaceStr s) with
  | false => rfl
  | true =>
    exfalso
    rcases Bool.or_eq_true_iff.mp hsp with he | hs
    · have hnil : s = [] := by
        cases s with
        | nil => rfl
        | cons a l => exact absurd he (by simp)
      rw [hnil, pyInt_nil] at hp
      exact Option.noConfusion hp
    · rw [pyIsSpaceStr, Bool.and_eq_true] at hs
      rw [pyInt_of_all_space s hs.2] at hp
      exact Option.noConfusion hp

theorem mapper_emits (line : List Char) (t : Int)
    (hlen : 93 ≤ line.length)
    (hp : pyInt (strippedTemp line) = some t)
    (ht : t ≠ 9999)
    (hq : qualityOf line ∈ accepted) :
    mapper line = some (yearOf line, t) := by
  have h1 : ¬ line.length < 93 := by omega
  have h2 := not_blank_of_pyInt_some _ t hp
  unfold mapper
  rw [if_neg h1, h2]
  simp only [Bool.false_eq_true, if_false, hp]
  rw [if_pos ⟨ht, hq⟩]

theorem mapperE_ok (line : List Char) :
    mapperE line = Except.ok (mapper line) := by
  unfold mapperE mapper
  split
  · rfl
  rename_i hlen
  split
  · rfl
  unfold pyIntE
  cases hp : pyInt (strippedTemp line) with
  | none => rfl
  | some t =>
    have h92 : line.get? 92 = some (qualityOf line) := by
      cases hg : line.get? 92 with
      | none =>
        have := List.get?_eq_none.mp hg
        omega
      | some c =>
        unfold qualityOf
        rw [List.getD_eq_getElem?_getD, ← List.get?_eq_getElem?, hg]
        rfl
    unfold strIndexE
    rw [h92]
    simp only []
    split <;> rfl

theorem digitChar_isDigit (m : Nat) (h : m < 10) :
    (Nat.digitChar m).isDigit = true := by
  interval_cases m <;> decide

theorem digitChar_ne_zero_char (m : Nat) (h0 : m ≠ 0) (h : m < 10) :
    Nat.digitChar m ≠ '0' := by
  have h1 : 1 ≤ m := by omega
  interval_cases m <;> decide

theorem digitVal_digitChar (m : Nat) (h : m < 10) :
    digitVal (Nat.digitChar m) = m := by
  interval_cases m <;> decide

theorem natDigitsFuel_ne_nil (fuel n : Nat) : natDigitsFuel fuel n ≠ [] := by
  cases fuel with
  | zero => simp [natDigitsFuel]
  | succ f =>
    unfold natDigitsFuel
    split <;> simp

theorem natDigits_ne_nil (n : Nat) : natDigits n ≠ [] :=
  natDigitsFuel_ne_nil n n

theorem natDigitsFuel_all_digit (fuel : Nat) :
    ∀ n, n ≤ fuel → ∀ c ∈ natDigitsFuel fuel n, c.isDigit = true := by
  induction fuel with
  | zero =>
    intro n hn c hc
    have h : n = 0 := by omega
    subst h
    rw [show natDigitsFuel 0 0 = ['0'] from rfl, List.mem_singleton] at hc
    subst hc
    decide
  | succ f ih =>
    intro n hn c hc
    unfold natDigitsFuel at hc
    split at hc
    · rename_i h10
      rw [List.mem_singleton] at hc
      subst hc
      exact digitChar_isDigit n h10
    · rename_i h10
      rw [List.mem_append] at hc
      rcases hc with hc | hc
      · exact ih (n / 10) (by omega) c hc
      · rw [List.mem_singleton] at hc
        subst hc
        exact digitChar_isDigit (n % 10) (Nat.mod_lt _ (by norm_num))

theorem natDigits_all_digit (n : Nat) :
    ∀ c ∈ natDigits n, c.isDigit = true :=
  natDigitsFuel_all_digit n n (le_refl n)

theorem natDigitsFuel_head_ne_zero (fuel : Nat) :
    ∀ n, n ≤ fuel → n ≠ 0 → (natDigitsFuel fuel n).head? ≠ some '0' := by
  induction fuel with
  | zero =>
    intro n hn h0
    omega
  | succ f ih =>
    intro n hn h0 hc
    unfold natDigitsFuel at hc
    split at hc
    · rename_i h10
      rw [List.head?_cons, Option.some.injEq] at hc
      exact digitChar_ne_zero_char n h0 h10 hc
    · rename_i h10
      rcases hx : natDigitsFuel f (n / 10) with _ | ⟨c, cs⟩
      · exact natDigitsFuel_ne_nil f (n / 10) hx
      · rw [hx, List.cons_append, List.head?_cons, Option.some.injEq] at hc
        have hih := ih (n / 10) (by omega) (by omega)
        rw [hx, List.head?_cons, hc] at hih
        exact hih rfl

theorem natDigits_head_ne_zero (n : Nat) (h0 : n ≠ 0) :
    (natDigits n).head? ≠ some '0' :=
  natDigitsFuel_head_ne_zero n n (le_refl n) h0

theorem natDigitsFuel_val (fuel : Nat) :
    ∀ n, n ≤ fuel → digitsVal (natDigitsFuel fuel n) = n := by
  induction fuel with
  | zero =>
    intro n hn
    have h : n = 0 := by omega
    subst h
    decide
  | succ f ih =>
    intro n hn
    unfold natDigitsFuel
    split
    · rename_i h10
      unfold digitsVal
      rw [List.foldl_cons, List.foldl_nil]
      rw [Nat.zero_mul, Nat.zero_add, digitVal_digitChar n h10]
    · rename_i h10
      unfold digitsVal
      rw [List.foldl_append]
      have hrec := ih (n / 10) (by omega)
      unfold digitsVal at hrec
      rw [hrec, List.foldl_cons, List.foldl_nil,
        digitVal_digitChar (n % 10) (Nat.mod_lt _ (by norm_num))]
      omega

theorem digitsVal_natDigits (n : Nat) : digitsVal (natDigits n) = n :=
  natDigitsFuel_val n n (le_refl n)

theorem pyIntRepr_head_digit (t : Int) (ht : ¬ t < 0) :
    ∃ c cs, pyIntRepr t = c :: cs ∧ c.isDigit = true := by
  unfold pyIntRepr
  rw [if_neg ht]
  rcases hx : natDigits t.natAbs with _ | ⟨c, cs⟩
  · exact absurd hx (natDigits_ne_nil _)
  · exact ⟨c, cs, rfl, natDigits_all_digit _ c (by rw [hx]; exact List.mem_cons_self c cs)⟩

theorem reducer_length (year : List Char) (temps : List Int) :
    (reducer year temps).length = temps.length := by
  induction temps with
  | nil => rfl
  | cons t ts ih => simp [reducer, ih]

theorem reducer_get? (year : List Char) (temps : List Int) (i : Nat) :
    (reducer year temps).get? i =
      (temps.get? i).map (fun t => (none, year ++ ' ' :: pyIntRepr t)) := by
  induction temps generalizing i with
  | nil => simp [reducer]
  | cons t ts ih =>
    cases i with
    | zero => rfl
    | succ j => simpa [reducer] using ih j

/-! ### Claim theorems -/

/-- Claim C3: for every input line whose temperature field after
sign-stripping parses to the integer 9999 (in particular the field that
is exactly "9999" after stripping), the mapper emits nothing, regardless
of the quality-code character at offset 92. -/
theorem sentinel_discarded (line : List Char)
    (hp : pyInt (strippedTemp line) = some 9999) : mapper line = none := by
  unfold mapper
  split
  · rfl
  split
  · rfl
  rw [hp]
  simp only []
  exact if_neg (fun hc => hc.1 rfl)

theorem sentinel_discarded_witness :
    pyInt (strippedTemp (mkLine "1950" "+9999" '1')) = some 9999 ∧
    mapper (mkLine "1950" "+9999" '1') = none :=
  ⟨by decide, sentinel_discarded (mkLine "1950" "+9999" '1') (by decide)⟩

/-- Claim C4: a line (of length at least 93) whose quality-code character
at offset 92 is not one of '0','1','4','5','9' produces no emission, and
every emitted pair comes from a line whose quality code is in that set. -/
theorem quality_filter (line : List Char) :
    (93 ≤ line.length → qualityOf line ∉ accepted → mapper line = none) ∧
    (∀ p : List Char × Int, mapper line = some p → qualityOf line ∈ accepted) := by
  constructor
  · intro _ hq
    unfold mapper
    split
    · rfl
    split
    · rfl
    cases pyInt (strippedTemp line) with
    | none => rfl
    | some t =>
      simp only []
      exact if_neg (fun hc => hq hc.2)
  · intro p hm
    unfold mapper at hm
    split at hm
    · exact absurd hm (by simp)
    split at hm
    · exact absurd hm (by simp)
    rcases hp : pyInt (strippedTemp line) with _ | t <;> rw [hp] at hm
    · exact absurd hm (by simp)
    · simp only [] at hm
      split at hm
      · rename_i hcond
        exact hcond.2
      · exact absurd hm (by simp)

theorem quality_filter_witness :
    mapper (mkLine "1950" "+0078" '2') = none :=
  (quality_filter (mkLine "1950" "+0078" '2')).1 (by decide) (by decide)

/-- Claim C8: on every input line the mapper finishes without any
exception reaching its caller (the `int` `ValueError` is caught, and the
`line[92]` access is guarded by the length check), and it yields at most
one pair. -/
theorem mapper_total_no_exception (line : List Char) :
    mapperE line = Except.ok (mapper line) ∧
    mapperGen line = (mapper line).toList ∧
    (mapperGen line).length ≤ 1 := by
  have hgen : mapperGen line = (mapper line).toList := by
    unfold mapperGen mapper
    split
    · rfl
    split
    · rfl
    cases pyInt (strippedTemp line) with
    | none => rfl
    | some t =>
      simp only []
      split <;> rfl
  refine ⟨mapperE_ok line, hgen, ?_⟩
  rw [hgen]
  cases mapper line <;> simp

/-- Claim C9: the mapper is deterministic and reads nothing but the
line: the result does not depend on the `self` object or the ignored
key argument, and it coincides with the pure function `mapper`, so two
runs on the same line agree. -/
theorem mapper_deterministic_pure (σ κ : Type) (s₁ s₂ : σ) (k₁ k₂ : κ)
    (line : List Char) :
    mapperMethod s₁ k₁ line = mapperMethod s₂ k₂ line ∧
    mapperMethod s₁ k₁ line = mapper line :=
  ⟨rfl, rfl⟩

/-- Claim C10: only the exact integer 9999 is the missing sentinel — a
line whose temperature field parses to -9999 with an accepted quality
code is emitted, not discarded. -/
theorem neg_sentinel_accepted (line : List Char)
    (hlen : 93 ≤ line.length)
    (hp : pyInt (strippedTemp line) = some (-9999))
    (hq : qualityOf line ∈ accepted) :
    mapper line = some (yearOf line, -9999) :=
  mapper_emits line (-9999) hlen hp (by decide) hq

theorem neg_sentinel_accepted_witness :
    mapper (mkLine "1950" "-9999" '0') =
      some (yearOf (mkLine "1950" "-9999" '0'), -9999) :=
  neg_sentinel_accepted (mkLine "1950" "-9999" '0') (by decide) (by decide) (by decide)

/-- Claim C1 (amended): every pair emitted by the mapper carries as year
component exactly the raw 4-character substring of the line at byte
offsets [15,19) (the line has length at least 93, so that substring has
exactly 4 characters) — but the mapper performs no digit check on it. -/
theorem mapper_year_is_raw_substring (line : List Char) (p : List Char × Int)
    (hm : mapper line = some p) :
    p.1 = yearOf line ∧ p.1.length = 4 ∧ 93 ≤ line.length := by
  have hlen : ¬ line.length < 93 := by
    intro h
    unfold mapper at hm
    rw [if_pos h] at hm
    exact Option.noConfusion hm
  have hy : p.1 = yearOf line := by
    unfold mapper at hm
    split at hm
    · exact absurd hm (by simp)
    split at hm
    · exact absurd hm (by simp)
    rcases hp : pyInt (strippedTemp line) with _ | t <;> rw [hp] at hm
    · exact absurd hm (by simp)
    · simp only [] at hm
      split at hm
      · rw [Option.some.injEq] at hm
        rw [← hm]
      · exact absurd hm (by simp)
  refine ⟨hy, ?_, by omega⟩
  rw [hy]
  unfold yearOf
  rw [List.length_take, List.length_drop]
  omega

theorem mapper_year_is_raw_substring_witness :
    mapper (mkLine "1950" "+0078" '9') = some ("1950".toList, 78) ∧
    "1950".toList = yearOf (mkLine "1950" "+0078" '9') ∧
    ("1950".toList).length = 4 :=
  ⟨by decide,
   (mapper_year_is_raw_substring (mkLine "1950" "+0078" '9')
      ("1950".toList, 78) (by decide)).1,
   (mapper_year_is_raw_substring (mkLine "1950" "+0078" '9')
      ("1950".toList, 78) (by decide)).2.1⟩

/-- Claim C1 counterexample: a line whose year field is the non-digit
"ABCD" but whose temperature and quality fields are valid is emitted
with year "ABCD" — the year of an emitted pair need not be 4 ASCII
digits. -/
theorem year_not_digits_cex :
    mapper (mkLine "ABCD" "+0010" '1') = some ("ABCD".toList, 10) ∧
    ("ABCD".toList.all Char.isDigit) = false := by
  exact ⟨by decide, by decide⟩

/-- Claim C2 counterexample: the temperature field "++123" strips (one
'+') to "+123", which contains the stray non-digit '+' that is not a
single leading '-', yet Python's `int` parses it to 123 and the mapper
emits a pair instead of discarding the line. -/
theorem stray_char_parse_cex :
    hasStrayNonDigit (strippedTemp (mkLine "1950" "++123" '1')) ∧
    pyInt (strippedTemp (mkLine "1950" "++123" '1')) = some 123 ∧
    mapper (mkLine "1950" "++123" '1') = some ("1950".toList, 123) := by
  refine ⟨by decide, by decide, by decide⟩

/-- Claim C2 (amended): when Python's `int` parse of the sign-stripped
temperature substring fails — i.e. the substring is not of the form
optional whitespace, one optional sign, then digits with single
underscores between digits — the mapper emits nothing for the line and
no error reaches the caller.  (A stray non-digit character does not
always make the parse fail: surrounding whitespace, a second '+'
exposed by the stripping, or an underscore between digits still
parses.) -/
theorem parse_failure_discards (line : List Char)
    (_hlen : 93 ≤ line.length)
    (hp : pyInt (strippedTemp line) = none) :
    mapper line = none ∧ mapperE line = Except.ok none := by
  have hm : mapper line = none := by
    unfold mapper
    split
    · rfl
    split
    · rfl
    rw [hp]
  exact ⟨hm, by rw [mapperE_ok line, hm]⟩

theorem parse_failure_discards_witness :
    93 ≤ (mkLine "1950" "12x45" '1').length ∧
    pyInt (strippedTemp (mkLine "1950" "12x45" '1')) = none ∧
    mapper (mkLine "1950" "12x45" '1') = none ∧
    mapperE (mkLine "1950" "12x45" '1') = Except.ok none := by
  refine ⟨by decide, by decide, ?_⟩
  exact parse_failure_discards (mkLine "1950" "12x45" '1') (by decide) (by decide)

/-- Claim C5: every line strictly shorter than 93 characters produces no
emission, and the length check is strict — a line of exactly 93
characters with a parseable non-sentinel temperature and an accepted
quality code is emitted. -/
theorem short_line_and_boundary (line : List Char) (t : Int) :
    (line.length < 93 → mapper line = none) ∧
    (line.length = 93 → pyInt (strippedTemp line) = some t → t ≠ 9999 →
      qualityOf line ∈ accepted → mapper line = some (yearOf line, t)) := by
  constructor
  · intro h
    unfold mapper
    rw [if_pos h]
  · intro hlen hp ht hq
    exact mapper_emits line t (by omega) hp ht hq

theorem short_line_and_boundary_witness :
    mapper ("too short".toList) = none ∧
    (mkLine "1950" "-0123" '4').length = 93 ∧
    mapper (mkLine "1950" "-0123" '4') =
      some (yearOf (mkLine "1950" "-0123" '4'), -123) :=
  ⟨(short_line_and_boundary ("too short".toList) 0).1 (by decide),
   by decide,
   (short_line_and_boundary (mkLine "1950" "-0123" '4') (-123)).2
     (by decide) (by decide) (by decide) (by decide)⟩

/-- Claim C6: exactly one leading '+' is stripped from the temperature
field while a leading '-' is left intact; hence the field "+0078" with
quality code '1' yields the pair (year, 78) — the year being the raw
substring at [15,19) — and the field "-0050" with quality code '5'
yields temperature -50. -/
theorem sign_handling (line : List Char) (rest : List Char) :
    (tempField line = '+' :: rest → strippedTemp line = rest) ∧
    (tempField line = '-' :: rest → strippedTemp line = '-' :: rest) ∧
    (93 ≤ line.length → tempField line = "+0078".toList → qualityOf line = '1' →
      mapper line = some (yearOf line, 78)) ∧
    (93 ≤ line.length → tempField line = "-0050".toList → qualityOf line = '5' →
      mapper line = some (yearOf line, -50)) := by
  refine ⟨?_, ?_, ?_, ?_⟩
  · intro h
    unfold strippedTemp stripPlus
    rw [h]
    rfl
  · intro h
    unfold strippedTemp stripPlus
    rw [h]
    rfl
  · intro hlen hf hq
    have hs : strippedTemp line = "0078".toList := by
      unfold strippedTemp stripPlus
      rw [hf]
      rfl
    exact mapper_emits line 78 hlen (by rw [hs]; decide) (by decide) (by rw [hq]; decide)
  · intro hlen hf hq
    have hs : strippedTemp line = "-0050".toList := by
      unfold strippedTemp stripPlus
      rw [hf]
      rfl
    exact mapper_emits line (-50) hlen (by rw [hs]; decide) (by decide) (by rw [hq]; decide)

theorem sign_handling_witness :
    strippedTemp (mkLine "1950" "+0078" '1') = "0078".toList ∧
    mapper (mkLine "1950" "+0078" '1') =
      some (yearOf (mkLine "1950" "+0078" '1'), 78) ∧
    mapper (mkLine "1950" "-0050" '5') =
      some (yearOf (mkLine "1950" "-0050" '5'), -50) :=
  ⟨(sign_handling (mkLine "1950" "+0078" '1') "0078".toList).1 (by decide),
   (sign_handling (mkLine "1950" "+0078" '1') []).2.2.1 (by decide) (by decide) (by decide),
   (sign_handling (mkLine "1950" "-0050" '5') []).2.2.2 (by decide) (by decide) (by decide)⟩

/-- Claim C7: the reducer yields exactly one output pair per incoming
temperature, in arrival order, keyed by `None`, the value being the year
followed by a single space and the decimal representation of the
temperature — leading '-' exactly for negatives, never a '+', and no
zero-padding; `digitsVal` certifies the digits really denote the
temperature's absolute value. -/
theorem reducer_one_line_per_temp (year : List Char) (temps : List Int)
    (i : Nat) (t : Int) :
    (reducer year temps).length = temps.length ∧
    (reducer year temps).get? i =
      (temps.get? i).map (fun t' => (none, year ++ ' ' :: pyIntRepr t')) ∧
    ((pyIntRepr t).head? = some '-' ↔ t < 0) ∧
    '+' ∉ pyIntRepr t ∧
    (t ≠ 0 → (natDigits t.natAbs).head? ≠ some '0') ∧
    digitsVal (natDigits t.natAbs) = t.natAbs := by
  refine ⟨reducer_length year temps, reducer_get? year temps i, ?_, ?_, ?_,
    digitsVal_natDigits _⟩
  · constructor
    · intro hh
      by_contra hneg
      rcases pyIntRepr_head_digit t hneg with ⟨c, cs, hx, hdig⟩
      rw [hx, List.head?_cons, Option.some.injEq] at hh
      rw [hh] at hdig
      exact absurd hdig (by decide)
    · intro hneg
      unfold pyIntRepr
      rw [if_pos hneg]
      rfl
  · unfold pyIntRepr
    split
    · rw [List.mem_cons]
      rintro (h | h)
      · exact absurd h (by decide)
      · exact absurd (natDigits_all_digit t.natAbs '+' h) (by decide)
    · intro h
      exact absurd (natDigits_all_digit t.natAbs '+' h) (by decide)
  · intro ht0
    exact natDigits_head_ne_zero t.natAbs (Int.natAbs_ne_zero.mpr ht0)

theorem reducer_one_line_per_temp_witness :
    (reducer "1950".toList [100, -20]).get? 1 = some (none, "1950 -20".toList) ∧
    (natDigits ((100 : Int)).natAbs).head? ≠ some '0' := by
  constructor
  · have h := (reducer_one_line_per_temp "1950".toList [100, -20] 1 100).2.1
    rw [h]
    decide
  · exact (reducer_one_line_per_temp "1950".toList [100, -20] 1 100).2.2.2.2.1 (by decide)
